import Mathlib

/-!
Verification of the account-balance core of the AI-Finance-Platform repository.

Shallow embedding of the server actions in src/actions/account.js and the
dashboard action file (src/unnamed/part_000): bulkDeleteTransactions,
updateDefaultAccount, createAccount and getUserAccounts, over an explicit
database state.

Modelling conventions:
* Opaque string identifiers (cuid / Clerk ids) are modelled as naturals.
* Prisma Decimal values are modelled by their exact rational value; JavaScript
  numbers are likewise idealised as exact rationals (this idealisation is
  conservative: it can only make the numeric claims of the spec easier, never
  harder, to satisfy; accordingly no proved theorem asserts exactness of
  JavaScript number arithmetic - where a statement touches numeric values it
  is either about value kinds or evaluated on integer amounts, on which
  IEEE-754 double arithmetic agrees with the rationals).
* The JavaScript dynamic semantics that actually runs in the balance-change
  reduce of bulkDeleteTransactions is modelled explicitly, because there the
  code applies the JavaScript binary plus to a Prisma Decimal object:
  Decimal.prototype.valueOf returns the decimal's string, so plus performs
  string concatenation whenever an operand is a Decimal (or a previously
  produced string), and numeric addition only when both operands are numbers.
* The authenticated caller (Clerk auth) and ArcJet's decision are inputs;
  storage faults inside the Prisma $transaction are modelled by an injected
  failure oracle, with the no-fault run given by noFail.
* Elided as irrelevant to the claims: revalidatePath calls, console logging,
  the ordering/_count decorations of read queries, and the serialised data
  payload attached to success results (serializeDecimal is the identity under
  the exact-rational idealisation).
-/

/-- Transaction type enum of the data model: INCOME | EXPENSE. -/
inductive TxType where
  | INCOME
  | EXPENSE
deriving DecidableEq, Repr

/-- Account type enum of the data model: CURRENT | SAVINGS. -/
inductive AccType where
  | CURRENT
  | SAVINGS
deriving DecidableEq, Repr

/-- An Account row: id, owning user, display name, type, cached balance
(Prisma Decimal, modelled exactly), and the isDefault flag. -/
structure Account where
  id : ℕ
  userId : ℕ
  name : String
  atype : AccType
  balance : ℚ
  isDefault : Bool
deriving DecidableEq, Repr

/-- A Transaction row: id, owning user, owning account, type and amount
(Prisma Decimal, non-negative magnitude, modelled exactly). -/
structure Transaction where
  id : ℕ
  userId : ℕ
  accountId : ℕ
  ttype : TxType
  amount : ℚ
deriving DecidableEq, Repr

/-- A User row: internal id plus the external Clerk id it is found by. -/
structure User where
  id : ℕ
  clerkUserId : ℕ
deriving DecidableEq, Repr

/-- The persistent store: the three tables the core touches. -/
structure DB where
  users : List User
  accounts : List Account
  transactions : List Transaction
deriving DecidableEq, Repr

/-- The failure-payload result shape of the two mutating server actions:
they catch internal errors and return a success flag plus an error message
(the serialised data attached on success is elided). -/
structure JsResult where
  success : Bool
  error : Option String
deriving DecidableEq, Repr

/-! ## JavaScript value semantics for the balance-change reduce

The reduce in bulkDeleteTransactions computes
  acc[t.accountId] = (acc[t.accountId] || 0) + change
where change is either the Prisma Decimal t.amount (EXPENSE) or the
JavaScript number -t.amount (INCOME; unary minus coerces the Decimal to a
number through its string form). We model the three kinds of value that can
flow through this expression. -/

/-- A JavaScript value reaching the balance-change accumulator: a number
(idealised as an exact rational), a string, or a Prisma Decimal object. -/
inductive JSVal where
  | num (q : ℚ)
  | str (s : String)
  | dec (q : ℚ)
deriving DecidableEq, Repr

/-- Left-pad a digit string with zeros to length k. -/
def padZeros (s : String) (k : ℕ) : String :=
  if s.length < k then String.mk (List.replicate (k - s.length) '0') ++ s else s

/-- Drop trailing zero characters. -/
def stripTrailingZeros (s : String) : String :=
  String.mk ((s.toList.reverse.dropWhile (fun c => c == '0')).reverse)

/-- Decimal notation for an exact rational whose denominator divides a power
of ten (every stored Prisma Decimal is of this form); this is the string
produced by Decimal.prototype.toString and, on the values arising here, by
JavaScript number-to-string. Rationals outside that form (unreachable from
the embedded code) get a fallback fraction notation. -/
def ratDecRepr (q : ℚ) : String :=
  match (List.range 21).find? (fun k => 10 ^ k % q.den == 0) with
  | some k =>
    let scaled : ℕ := q.num.natAbs * (10 ^ k / q.den)
    let ip : ℕ := scaled / 10 ^ k
    let fp : ℕ := scaled % 10 ^ k
    let sign : String := if q.num < 0 then "-" else ""
    let fracDigits := stripTrailingZeros (padZeros (toString fp) k)
    if fracDigits = "" then sign ++ toString ip
    else sign ++ toString ip ++ "." ++ fracDigits
  | none => toString q.num ++ "/" ++ toString q.den

/-- ToString of a JavaScript value as used by the binary plus: numbers print
their decimal notation, Decimal objects convert through valueOf = toString. -/
def jsToStr : JSVal → String
  | JSVal.num q => ratDecRepr q
  | JSVal.str s => s
  | JSVal.dec q => ratDecRepr q

/-- JavaScript falsiness of the accumulator value (for the || 0 guard):
the number 0 and the empty string are falsy; a Decimal object never is. -/
def jsFalsy : JSVal → Bool
  | JSVal.num q => decide (q = 0)
  | JSVal.str s => decide (s = "")
  | JSVal.dec _ => false

/-- JavaScript binary plus on these values: numeric addition when both
operands are numbers; otherwise ToPrimitive turns a Decimal into its string
(valueOf) and the result is string concatenation. In the source the
number-number case is IEEE-754 double addition, idealised here as exact
rational addition; the idealisation is conservative (it can only make the
spec's exactness claims easier) and no proved theorem relies on number
arithmetic being exact - the statements about the accumulator are about
value kinds or evaluate integer amounts, on which double addition is
exact. -/
def jsAdd : JSVal → JSVal → JSVal
  | JSVal.num a, JSVal.num b => JSVal.num (a + b)
  | a, b => JSVal.str (jsToStr a ++ jsToStr b)

/-- Digit characters. -/
def isDigitChar (c : Char) : Bool := 48 ≤ c.toNat && c.toNat ≤ 57

/-- Natural number denoted by a digit string. -/
def digitsToNat (cs : List Char) : ℕ :=
  cs.foldl (fun acc c => acc * 10 + (c.toNat - 48)) 0

/-- Parsing of a string as a Prisma Decimal (the validation Prisma applies to
a string passed to a Decimal-field increment): an optional sign, an integer
part, an optional fractional part; anything else is rejected. -/
def parseDecimalString (s : String) : Option ℚ :=
  let cs := s.toList
  let neg : Bool := match cs with
    | '-' :: _ => true
    | _ => false
  let body : List Char := match cs with
    | '-' :: rest => rest
    | '+' :: rest => rest
    | _ => cs
  let signed : ℚ → ℚ := fun q => if neg then -q else q
  let ip := body.takeWhile isDigitChar
  let rest := body.dropWhile isDigitChar
  match rest with
  | [] => if ip.isEmpty then none else some (signed (digitsToNat ip : ℚ))
  | '.' :: rest2 =>
    let fp := rest2.takeWhile isDigitChar
    let rest3 := rest2.dropWhile isDigitChar
    if rest3.isEmpty then
      if ip.isEmpty && fp.isEmpty then none
      else some (signed
        ((digitsToNat ip : ℚ) + (digitsToNat fp : ℚ) / (10 ^ fp.length : ℚ)))
    else none
  | _ => none

/-- Coercion of the accumulated JavaScript value into a Decimal when it is
passed as the increment argument of a Prisma account update: numbers and
Decimals pass through; strings must parse as a decimal or the update throws. -/
def jsToDecimalArg : JSVal → Option ℚ
  | JSVal.num q => some q
  | JSVal.dec q => some q
  | JSVal.str s => parseDecimalString s

/-! ## bulkDeleteTransactions (src/actions/account.js, lines 66-130) -/

/-- The where-condition shared by the resolution query and the deleteMany:
id in transactionIds AND userId = user.id. -/
def txMatches (ids : List ℕ) (uid : ℕ) (t : Transaction) : Bool :=
  ids.contains t.id && t.userId == uid

/-- The per-transaction change of the reduce: the Decimal amount itself for
an EXPENSE, the (number-coerced) negated amount for an INCOME. In the source
the INCOME branch applies unary minus, i.e. ToNumber of the Decimal's string
followed by double negation, which rounds to the nearest double; it is
idealised here as exact rational negation (conservative, and decisive for no
proved theorem: the kind of the value - a number, not a Decimal - is what the
theorems below use, and concrete runs use integer amounts, on which the
coercion is exact). -/
def txChange (t : Transaction) : JSVal :=
  match t.ttype with
  | TxType.EXPENSE => JSVal.dec t.amount
  | TxType.INCOME => JSVal.num (-t.amount)

/-- Lookup in the accumulator object (keys in insertion order). -/
def lookupEntry : List (ℕ × JSVal) → ℕ → Option JSVal
  | [], _ => none
  | (k, v) :: rest, key => if k == key then some v else lookupEntry rest key

/-- Property write on the accumulator object: replace an existing key in
place, else append (JavaScript objects preserve insertion order). -/
def setEntry : List (ℕ × JSVal) → ℕ → JSVal → List (ℕ × JSVal)
  | [], key, v => [(key, v)]
  | (k, w) :: rest, key, v =>
    if k == key then (k, v) :: rest else (k, w) :: setEntry rest key v

/-- One step of the reduce: acc[aid] = (acc[aid] || 0) + change. -/
def addChange (acc : List (ℕ × JSVal)) (aid : ℕ) (change : JSVal) :
    List (ℕ × JSVal) :=
  let cur : JSVal := match lookupEntry acc aid with
    | none => JSVal.num 0
    | some v => if jsFalsy v then JSVal.num 0 else v
  setEntry acc aid (jsAdd cur change)

/-- transactions.reduce(...) building accountBalanceChanges. -/
def computeChanges (ts : List Transaction) : List (ℕ × JSVal) :=
  ts.foldl (fun acc t => addChange acc t.accountId (txChange t)) []

/-- tx.account.update incrementing the balance of the account with the given
id (the where clause of this update names the id only). -/
def incrementBalance (accounts : List Account) (aid : ℕ) (d : ℚ) :
    List Account :=
  accounts.map (fun a =>
    if a.id == aid then { a with balance := a.balance + d } else a)

/-- The update loop inside the Prisma $transaction: for each accumulated
(accountId, change) entry, increment that account's balance. The injected
failure oracle models a storage fault at a given operation index; an invalid
decimal increment argument or a missing account aborts as well. -/
def runUpdates (inject : ℕ → Bool) :
    List Account → List (ℕ × JSVal) → ℕ → Except String (List Account)
  | accounts, [], _ => Except.ok accounts
  | accounts, (aid, v) :: rest, opIdx =>
    if inject opIdx then Except.error "Storage failure"
    else
      match jsToDecimalArg v with
      | none => Except.error "Invalid decimal argument"
      | some d =>
        if accounts.any (fun a => a.id == aid) then
          runUpdates inject (incrementBalance accounts aid d) rest (opIdx + 1)
        else Except.error "Record to update not found"

/-- The body of the db.$transaction callback: deleteMany the matching
transactions (operation index 0), then run the balance updates (operation
indices 1, 2, ...). -/
def txBody (db : DB) (uid : ℕ) (ids : List ℕ) (entries : List (ℕ × JSVal))
    (inject : ℕ → Bool) : Except String DB :=
  if inject 0 then Except.error "Storage failure"
  else
    let remaining := db.transactions.filter (fun t => !(txMatches ids uid t))
    match runUpdates inject db.accounts entries 1 with
    | Except.error e => Except.error e
    | Except.ok accounts2 =>
      Except.ok { db with transactions := remaining, accounts := accounts2 }

/-- The no-fault oracle: a run of the real code without storage errors. -/
def noFail : ℕ → Bool := fun _ => false

/-- bulkDeleteTransactions: resolve the caller, load the owned transactions
among the requested ids, fold their balance changes, then atomically delete
and apply the increments; all internal failures are caught and returned as a
failure payload, and a $transaction abort leaves the store untouched. -/
def bulkDeleteTransactions (authId : Option ℕ) (db : DB)
    (transactionIds : List ℕ) (inject : ℕ → Bool) : JsResult × DB :=
  match authId with
  | none => ({ success := false, error := some "Unauthorized" }, db)
  | some cid =>
    match db.users.find? (fun u => u.clerkUserId == cid) with
    | none => ({ success := false, error := some "User not found" }, db)
    | some user =>
      let resolved := db.transactions.filter (txMatches transactionIds user.id)
      let entries := computeChanges resolved
      match txBody db user.id transactionIds entries inject with
      | Except.error e => ({ success := false, error := some e }, db)
      | Except.ok db2 => ({ success := true, error := none }, db2)

/-! ## updateDefaultAccount (src/actions/account.js, lines 133-172)

The two phases are two separate awaited Prisma calls with no surrounding
$transaction: the clear phase commits on its own before the set phase runs. -/

/-- Step 1: db.account.updateMany clearing isDefault on every account of the
user that currently has it set. -/
def clearDefaults (db : DB) (uid : ℕ) : DB :=
  { db with
    accounts := db.accounts.map (fun a =>
      if a.userId == uid && a.isDefault then { a with isDefault := false }
      else a) }

/-- Step 2: db.account.update setting isDefault on the account matched by
id AND userId (throws, caught by the caller, when no row matches). -/
def setDefaultWhere (db : DB) (aid uid : ℕ) : DB :=
  { db with
    accounts := db.accounts.map (fun a =>
      if a.id == aid && a.userId == uid then { a with isDefault := true }
      else a) }

/-- updateDefaultAccount: resolve the caller, clear the existing defaults
(committed immediately), then set the named account as default; a failure in
the set phase is caught and returned as a failure payload, but the already
committed clear phase is not rolled back. -/
def updateDefaultAccount (authId : Option ℕ) (db : DB) (accountId : ℕ) :
    JsResult × DB :=
  match authId with
  | none => ({ success := false, error := some "Unauthorized" }, db)
  | some cid =>
    match db.users.find? (fun u => u.clerkUserId == cid) with
    | none => ({ success := false, error := some "User not found" }, db)
    | some user =>
      let db1 := clearDefaults db user.id
      match db1.accounts.find?
          (fun a => a.id == accountId && a.userId == user.id) with
      | none =>
        ({ success := false, error := some "Record to update not found" }, db1)
      | some _ =>
        ({ success := true, error := none },
          setDefaultWhere db1 accountId user.id)

/-! ## createAccount (src/unnamed/part_000, lines 67-150) -/

/-- The input of createAccount as it reaches the defaulting logic: name and
type are passed through; balance carries the parseFloat result of the
submitted balance string (none when parseFloat returned NaN); isDefault is
the requested flag (false when absent, matching the Prisma column default). -/
structure AccountData where
  name : String
  atype : AccType
  balance : Option ℚ
  isDefault : Bool
deriving DecidableEq, Repr

/-- The id generated by db.account.create for the new row: fresh with
respect to the existing account ids. -/
def freshId (db : DB) : ℕ :=
  (db.accounts.map (fun a => a.id)).foldr max 0 + 1

/-- db.account.create: insert the new account row (with its generated id)
and return it. -/
def insertAccount (db1 : DB) (uid : ℕ) (data : AccountData) (balanceFloat : ℚ)
    (shouldBeDefault : Bool) : Except String Account × DB :=
  let account : Account :=
    { id := freshId db1, userId := uid, name := data.name,
      atype := data.atype, balance := balanceFloat,
      isDefault := shouldBeDefault }
  (Except.ok account, { db1 with accounts := db1.accounts ++ [account] })

/-- createAccount: authenticate, consult ArcJet, resolve the user, validate
the balance, force isDefault on a first account, clear the other defaults
when the effective flag is set (a separate committed updateMany, no
surrounding $transaction), insert the new account, and return it; every
failure is re-raised to the caller. -/
def createAccount (authId : Option ℕ) (arcjetDenied : Bool) (db : DB)
    (data : AccountData) : Except String Account × DB :=
  match authId with
  | none => (Except.error "Unauthorized", db)
  | some cid =>
    if arcjetDenied then (Except.error "Request blocked", db)
    else
      match db.users.find? (fun u => u.clerkUserId == cid) with
      | none => (Except.error "User not found", db)
      | some user =>
        match data.balance with
        | none => (Except.error "Invalid balance amount", db)
        | some balanceFloat =>
          let existingAccounts := db.accounts.filter
            (fun a => a.userId == user.id)
          let shouldBeDefault :=
            if existingAccounts.length == 0 then true else data.isDefault
          let db1 := if shouldBeDefault then clearDefaults db user.id else db
          insertAccount db1 user.id data balanceFloat shouldBeDefault

/-! ## getUserAccounts (src/unnamed/part_000, lines 32-64) -/

/-- getUserAccounts: raises on a missing caller identity or a missing user
row; the account query itself sits in a try/catch whose catch only logs, so
a storage failure there (the queryFails oracle) falls through and returns
undefined (modelled as ok none) instead of raising. -/
def getUserAccounts (authId : Option ℕ) (db : DB) (queryFails : Bool) :
    Except String (Option (List Account)) :=
  match authId with
  | none => Except.error "Unauthorized"
  | some cid =>
    match db.users.find? (fun u => u.clerkUserId == cid) with
    | none => Except.error "User not found"
    | some user =>
      if queryFails then Except.ok none
      else Except.ok (some (db.accounts.filter (fun a => a.userId == user.id)))

/-! ## Call sequences over the two default-touching operations -/

/-- One call of the Default-Account Arbiter surface: a createAccount request
or an updateDefaultAccount request, each with its caller identity. -/
inductive Op where
  | createOp (authId : Option ℕ) (arcjetDenied : Bool) (data : AccountData)
  | setDefaultOp (authId : Option ℕ) (accountId : ℕ)

/-- Execute one call, recording whether it succeeded and the store it
leaves behind (including the partial effects of a failed call). -/
def applyOp (db : DB) : Op → Bool × DB
  | Op.createOp a aj d =>
    match createAccount a aj db d with
    | (Except.ok _, db2) => (true, db2)
    | (Except.error _, db2) => (false, db2)
  | Op.setDefaultOp a aid =>
    let r := updateDefaultAccount a db aid
    (r.1.success, r.2)

/-- Execute a sequence of calls; the flag is true when every call succeeded. -/
def runOpsAll : DB → List Op → Bool × DB
  | db, [] => (true, db)
  | db, op :: ops =>
    let r := applyOp db op
    let r2 := runOpsAll r.2 ops
    (r.1 && r2.1, r2.2)

/-! ## Invariants and spec-side quantities -/

/-- The accounts owned by a user. -/
def userAccounts (db : DB) (uid : ℕ) : List Account :=
  db.accounts.filter (fun a => a.userId == uid)

/-- The number of accounts of a user carrying isDefault = true. -/
def countDefaults (db : DB) (uid : ℕ) : ℕ :=
  (db.accounts.filter (fun a => a.userId == uid && a.isDefault)).length

/-- Invariant I1 of the spec: every user owning at least one account has
exactly one default account (stated over the owners present in the table,
which is decidable and equivalent). -/
def singleDefaultInv (db : DB) : Prop :=
  ∀ uid ∈ db.accounts.map (fun a => a.userId), countDefaults db uid = 1

/-- Well-formedness of the store: account ids are unique (primary keys). -/
def nodupIds (db : DB) : Prop :=
  (db.accounts.map (fun a => a.id)).Nodup

/-- The spec's reversal delta of a deleted transaction: +amount for an
EXPENSE, -amount for an INCOME. -/
def reversalDelta (t : Transaction) : ℚ :=
  match t.ttype with
  | TxType.EXPENSE => t.amount
  | TxType.INCOME => -t.amount

/-- The spec's aggregated delta for one account: the exact sum of the
reversal deltas of the resolved transactions linked to it. -/
def specAccountDelta (ts : List Transaction) (aid : ℕ) : ℚ :=
  ((ts.filter (fun t => t.accountId == aid)).map reversalDelta).sum

/-- singleDefaultInv ranges over the owners listed in the table, so it is
decidable and checkable on concrete stores. -/
instance instDecSingleDefaultInv (db : DB) : Decidable (singleDefaultInv db) :=
  List.decidableBAll _ _

/-- nodupIds is decidable on concrete stores. -/
instance instDecNodupIds (db : DB) : Decidable (nodupIds db) :=
  List.nodupDecidable _

/-! ## Concrete fixtures used by counterexamples and witnesses -/

/-- Example user 1 (Clerk id 10). -/
def u1 : User := { id := 1, clerkUserId := 10 }

/-- Example user 2 (Clerk id 20). -/
def u2 : User := { id := 2, clerkUserId := 20 }

/-- Account X of user 1, balance 100.00, the default. -/
def accX : Account :=
  { id := 1, userId := 1, name := "X", atype := AccType.CURRENT,
    balance := 100, isDefault := true }

/-- A second, non-default account of user 1. -/
def accB : Account :=
  { id := 2, userId := 1, name := "B", atype := AccType.SAVINGS,
    balance := 50, isDefault := false }

/-- EXPENSE transaction of 10.00 on account X, owned by user 1. -/
def t1ex : Transaction :=
  { id := 1, userId := 1, accountId := 1, ttype := TxType.EXPENSE, amount := 10 }

/-- EXPENSE transaction of 20.00 on account X, owned by user 1. -/
def t2ex : Transaction :=
  { id := 2, userId := 1, accountId := 1, ttype := TxType.EXPENSE, amount := 20 }

/-- INCOME transaction of 20.00 owned by user 2. -/
def tOther : Transaction :=
  { id := 5, userId := 2, accountId := 7, ttype := TxType.INCOME, amount := 20 }

/-- Store for the balance-aggregation runs: user 1 with account X and two
EXPENSE transactions on it. -/
def exDb3 : DB := { users := [u1], accounts := [accX], transactions := [t1ex, t2ex] }

/-- Store for the ownership-filter runs: two users, user 2 owning a
transaction whose id user 1 will request. -/
def c6db : DB :=
  { users := [u1, u2], accounts := [accX], transactions := [t1ex, tOther] }

/-- Store in which every requested transaction id is unresolvable for the
caller. -/
def c8db : DB := { users := [u1, u2], accounts := [], transactions := [tOther] }

/-- Store with a single defaulted account, for the default-switch runs. -/
def c1db : DB := { users := [u1], accounts := [accX], transactions := [] }

/-- Store with a default and a non-default account of the same user. -/
def c9db : DB := { users := [u1], accounts := [accX, accB], transactions := [] }

/-- Store for a user with no accounts yet. -/
def c7db : DB := { users := [u1], accounts := [], transactions := [] }

/-- A create request explicitly asking isDefault = false. -/
def c7data : AccountData :=
  { name := "A", atype := AccType.CURRENT, balance := some 50, isDefault := false }

/-- A create request for a second, non-default account. -/
def c1data : AccountData :=
  { name := "B", atype := AccType.SAVINGS, balance := some 5, isDefault := false }

/-- A successful two-call sequence: create a second account, then switch the
default to it. -/
def c1ops : List Op :=
  [Op.createOp (some 10) false c1data, Op.setDefaultOp (some 10) 2]

/-- Failure oracle injecting a storage fault at operation index 1 (the first
balance update inside the atomic unit, after the delete). -/
def injectAt1 : ℕ → Bool := fun n => n == 1
/-- C3 (code_bug run): on the store exDb3 (account X with balance 100.00 and
two owned EXPENSE transactions of 10.00 and 20.00 on X), bulkDeleteTransactions
of both ids reports success and commits balance 1120 on X, because the reduce
concatenates the Decimal amounts into the string "01020" (increment 1020),
whereas the claimed conservation (balance + sum of reversal deltas) demands
130. -/
theorem bulkDelete_breaks_conservation :
    (bulkDeleteTransactions (some 10) exDb3 [1, 2] noFail).1.success = true ∧
    (bulkDeleteTransactions (some 10) exDb3 [1, 2] noFail).2.accounts.map
      (fun a => a.balance) = [1120] ∧
    accX.balance + specAccountDelta [t1ex, t2ex] accX.id = 130 ∧
    (1120 : ℚ) ≠ 130 := by
  refine ⟨rfl, ?_, ?_, by norm_num⟩
  · have h : (bulkDeleteTransactions (some 10) exDb3 [1, 2] noFail).2.accounts.map
        (fun a => a.balance) = [100 + ((1020 : ℕ) : ℚ)] := rfl
    rw [h]; norm_num
  · have h : accX.balance + specAccountDelta [t1ex, t2ex] accX.id =
        100 + (10 + (20 + 0)) := rfl
    rw [h]; norm_num

/-- C4: bulkDeleteTransactions wraps the delete and every balance increment
in one Prisma $transaction, so whenever the call reports failure - for any
caller, store, id set and injected storage fault - the resulting store equals
the store at the start of the call: no transaction is deleted and no balance
changed. -/
theorem bulkDelete_atomic_rollback (authId : Option ℕ) (db : DB) (ids : List ℕ)
    (inject : ℕ → Bool)
    (h : (bulkDeleteTransactions authId db ids inject).1.success = false) :
    (bulkDeleteTransactions authId db ids inject).2 = db := by
  rcases authId with _ | cid
  · rfl
  · simp only [bulkDeleteTransactions] at h ⊢
    cases hf : db.users.find? (fun u => u.clerkUserId == cid) with
    | none => simp [hf]
    | some user =>
      simp only [hf] at h ⊢
      cases hb : txBody db user.id ids
          (computeChanges (db.transactions.filter (txMatches ids user.id))) inject with
      | error e => simp [hb]
      | ok db2 => simp [hb] at h

/-- Witness for C4: a storage fault injected at operation index 1 (after the
delete, before the first balance update) makes the concrete run fail and
leaves the store exactly as it was. -/
theorem bulkDelete_atomic_rollback_witness :
    (bulkDeleteTransactions (some 10) exDb3 [1] injectAt1).1.success = false ∧
    (bulkDeleteTransactions (some 10) exDb3 [1] injectAt1).2 = exDb3 :=
  ⟨rfl, bulkDelete_atomic_rollback (some 10) exDb3 [1] injectAt1 rfl⟩

/-- C8 (counterexample): with a non-empty id set whose only id names a
transaction owned by another user, bulkDeleteTransactions reports success
(success := true) and changes nothing, contradicting the claim that such a
call fails with NotFound. -/
theorem bulkDelete_unresolvable_reports_success :
    (bulkDeleteTransactions (some 10) c8db [5] noFail).1 =
      { success := true, error := none } ∧
    (bulkDeleteTransactions (some 10) c8db [5] noFail).2 = c8db := ⟨rfl, rfl⟩

/-- C5 (counterexample): for two EXPENSE transactions of 10.00 and 20.00 on
the same account, the per-account combination of deltas evaluates to the
string "01020" (JavaScript plus concatenates through Decimal.valueOf), which
Prisma then reads as the decimal 1020 - not the exact decimal sum 30 of the
reversal deltas, refuting the claim that the summation is exact fixed-point
decimal addition. -/
theorem computeChanges_concatenates :
    lookupEntry (computeChanges [t1ex, t2ex]) 1 = some (JSVal.str "01020") ∧
    jsToDecimalArg (JSVal.str "01020") = some 1020 ∧
    reversalDelta t1ex + reversalDelta t2ex = 30 ∧ (1020 : ℚ) ≠ 30 := by
  refine ⟨rfl, ?_, ?_, by norm_num⟩
  · have h : jsToDecimalArg (JSVal.str "01020") = some ((1020 : ℕ) : ℚ) := rfl
    rw [h]; norm_num
  · have h : reversalDelta t1ex + reversalDelta t2ex = (10 : ℚ) + 20 := rfl
    rw [h]; norm_num

/-- C1 (counterexample): starting from a store satisfying the single-default
invariant (user 1 owns exactly account X, the default), the one-call sequence
setDefaultAccount(99) - a failed call, since no account 99 exists - leaves
user 1 owning an account but with zero defaults, refuting the claim for
sequences that include failed calls. -/
theorem failed_setDefault_breaks_single_default :
    singleDefaultInv c1db ∧ nodupIds c1db ∧
    userAccounts (runOpsAll c1db [Op.setDefaultOp (some 10) 99]).2 1 ≠ [] ∧
    countDefaults (runOpsAll c1db [Op.setDefaultOp (some 10) 99]).2 1 = 0 := by
  refine ⟨by decide, by decide, ?_, rfl⟩
  decide

/-- C2 (counterexample): updateDefaultAccount with an unresolvable account id
reports failure, yet the isDefault flag of the user's previously-default
account has been changed from true to false and the user is left with zero
defaults: the clear phase committed on its own, so the two phases are not one
atomic unit. -/
theorem updateDefault_failure_mutates :
    (updateDefaultAccount (some 10) c1db 99).1.success = false ∧
    c1db.accounts.map (fun a => a.isDefault) = [true] ∧
    (updateDefaultAccount (some 10) c1db 99).2.accounts.map
      (fun a => a.isDefault) = [false] ∧
    countDefaults (updateDefaultAccount (some 10) c1db 99).2 1 = 0 :=
  ⟨rfl, rfl, rfl, rfl⟩

/-- C8 (amended): when the caller resolves but no requested transaction id
resolves to a transaction owned by the caller, bulkDeleteTransactions deletes
nothing, changes no balance, and reports success with the store unchanged -
unresolvable ids are silently skipped rather than surfaced as NotFound. -/
theorem bulkDelete_unresolvable_silent_success (cid : ℕ) (db : DB) (ids : List ℕ)
    (u : User) (hu : db.users.find? (fun v => v.clerkUserId == cid) = some u)
    (hnone : ∀ s ∈ db.transactions, txMatches ids u.id s = false) :
    bulkDeleteTransactions (some cid) db ids noFail =
      ({ success := true, error := none }, db) := by
  have hres : db.transactions.filter (txMatches ids u.id) = [] :=
    List.filter_eq_nil_iff.mpr (fun s hs => by simp [hnone s hs])
  have hkeep : db.transactions.filter (fun s => !(txMatches ids u.id s)) =
      db.transactions :=
    List.filter_eq_self.mpr (fun s hs => by simp [hnone s hs])
  simp only [bulkDeleteTransactions, hu, hres, computeChanges, List.foldl_nil,
    txBody, noFail, Bool.false_eq_true, if_false, runUpdates, hkeep]

/-- Witness for the amended C8 at a concrete store in which the single
requested id belongs to another user's transaction. -/
theorem bulkDelete_unresolvable_silent_success_witness :
    bulkDeleteTransactions (some 10) c8db [5] noFail =
      ({ success := true, error := none }, c8db) :=
  bulkDelete_unresolvable_silent_success 10 c8db [5] u1 rfl (by decide)

/-- C7: whenever createAccount reaches its insert (caller authenticated, not
rate-limited, user found, balance numeric), the created account's isDefault
flag is true when the user's existing-account count is 0 - regardless of the
requested flag - and equals the requested flag otherwise. -/
theorem createAccount_first_account_default (cid : ℕ) (db : DB) (data : AccountData)
    (u : User) (q : ℚ)
    (hu : db.users.find? (fun v => v.clerkUserId == cid) = some u)
    (hb : data.balance = some q) :
    ∃ acct db2, createAccount (some cid) false db data = (Except.ok acct, db2) ∧
      acct.isDefault =
        (if (db.accounts.filter (fun a => a.userId == u.id)).length = 0 then true
         else data.isDefault) := by
  simp only [createAccount, insertAccount, hu, hb, Bool.false_eq_true, if_false]
  refine ⟨_, _, rfl, ?_⟩
  by_cases hl : (db.accounts.filter (fun a => a.userId == u.id)).length = 0
  · simp [hl]
  · simp [hl]

/-- Witness for C7: a user with zero accounts requesting isDefault := false
still receives a default account. -/
theorem createAccount_first_account_default_witness :
    ∃ acct db2, createAccount (some 10) false c7db c7data = (Except.ok acct, db2) ∧
      acct.isDefault =
        (if (c7db.accounts.filter (fun a => a.userId == u1.id)).length = 0 then true
         else c7data.isDefault) :=
  createAccount_first_account_default 10 c7db c7data u1 50 rfl rfl

/-- C10: getUserAccounts raises exactly on a missing caller identity or a
missing user row; a storage failure in the account query itself is caught
(and logged) and the function returns undefined (ok none) rather than raising
or returning a failure payload. -/
theorem getUserAccounts_swallows_query_failure :
    (∀ db qf, getUserAccounts none db qf = Except.error "Unauthorized") ∧
    (∀ cid db qf, db.users.find? (fun v => v.clerkUserId == cid) = none →
      getUserAccounts (some cid) db qf = Except.error "User not found") ∧
    (∀ cid db u, db.users.find? (fun v => v.clerkUserId == cid) = some u →
      getUserAccounts (some cid) db true = Except.ok none) ∧
    (∀ a db qf e, getUserAccounts a db qf = Except.error e →
      a = none ∨ ∃ cid, a = some cid ∧
        db.users.find? (fun v => v.clerkUserId == cid) = none) := by
  refine ⟨fun db qf => rfl, fun cid db qf hf => by simp [getUserAccounts, hf],
    fun cid db u hf => by simp [getUserAccounts, hf], fun a db qf e he => ?_⟩
  rcases a with _ | cid
  · exact Or.inl rfl
  · refine Or.inr ⟨cid, rfl, ?_⟩
    cases hf : db.users.find? (fun v => v.clerkUserId == cid) with
    | none => rfl
    | some u =>
      simp only [getUserAccounts, hf] at he
      rcases qf with _ | _ <;> simp_all

/-- Witness for C10: a concrete run with a failing account query returns
undefined instead of raising. -/
theorem getUserAccounts_swallows_query_failure_witness :
    getUserAccounts (some 10) c1db true = Except.ok none :=
  getUserAccounts_swallows_query_failure.2.2.1 10 c1db u1 rfl

/-- Helper: a successful $transaction body leaves exactly the non-matching
transactions. -/
theorem txBody_ok_shape {db : DB} {uid : ℕ} {ids : List ℕ}
    {entries : List (ℕ × JSVal)} {inject : ℕ → Bool} {db2 : DB}
    (h : txBody db uid ids entries inject = Except.ok db2) :
    db2.transactions = db.transactions.filter (fun s => !(txMatches ids uid s)) := by
  unfold txBody at h
  cases h0 : inject 0 with
  | true => rw [h0] at h; simp at h
  | false =>
    rw [h0] at h
    simp only [Bool.false_eq_true, if_false] at h
    cases hr : runUpdates inject db.accounts entries 1 with
    | error e => rw [hr] at h; simp at h
    | ok acc2 =>
      rw [hr] at h
      simp only [Except.ok.injEq] at h
      rw [← h]

/-- C6: a transaction owned by someone other than the calling user is never
deleted by bulkDeleteTransactions, and (when its id does not collide with
another transaction's id) adding its id to the requested set changes nothing
about the call - it contributes to no account's balance change. -/
theorem bulkDelete_ownership_filter (cid : ℕ) (db : DB) (ids : List ℕ)
    (inject : ℕ → Bool) (u : User) (t : Transaction)
    (hu : db.users.find? (fun v => v.clerkUserId == cid) = some u)
    (ht : t ∈ db.transactions) (hown : t.userId ≠ u.id) :
    t ∈ (bulkDeleteTransactions (some cid) db ids inject).2.transactions ∧
    ((∀ s ∈ db.transactions, s.id = t.id → s = t) →
      bulkDeleteTransactions (some cid) db (t.id :: ids) inject =
        bulkDeleteTransactions (some cid) db ids inject) := by
  constructor
  · simp only [bulkDeleteTransactions, hu]
    cases hb : txBody db u.id ids
        (computeChanges (db.transactions.filter (txMatches ids u.id))) inject with
    | error e => simpa using ht
    | ok db2 =>
      have h2 := txBody_ok_shape hb
      simp only [h2]
      exact List.mem_filter.mpr ⟨ht, by simp [txMatches, hown]⟩
  · intro huniq
    have hstep : ∀ s ∈ db.transactions,
        txMatches (t.id :: ids) u.id s = txMatches ids u.id s := by
      intro s hs
      unfold txMatches
      by_cases hid : s.id = t.id
      · have hst : s = t := huniq s hs hid
        rw [hst]
        simp [hown]
      · simp [List.contains_cons, hid]
    have hres : db.transactions.filter (txMatches (t.id :: ids) u.id) =
        db.transactions.filter (txMatches ids u.id) := List.filter_congr hstep
    have hbody : ∀ entries, txBody db u.id (t.id :: ids) entries inject =
        txBody db u.id ids entries inject := by
      intro entries
      unfold txBody
      rw [List.filter_congr (fun s hs => by rw [hstep s hs])]
    simp only [bulkDeleteTransactions, hu, hres, hbody]

/-- Witness for C6: user 1 requesting user 2's transaction id along with an
owned id: the foreign transaction survives and its id is inert. -/
theorem bulkDelete_ownership_filter_witness :
    tOther ∈ (bulkDeleteTransactions (some 10) c6db [1] noFail).2.transactions ∧
    bulkDeleteTransactions (some 10) c6db (tOther.id :: [1]) noFail =
      bulkDeleteTransactions (some 10) c6db [1] noFail :=
  ⟨(bulkDelete_ownership_filter 10 c6db [1] noFail u1 tOther rfl
      (List.Mem.tail _ (List.Mem.head _)) (by decide)).1,
    (bulkDelete_ownership_filter 10 c6db [1] noFail u1 tOther rfl
      (List.Mem.tail _ (List.Mem.head _)) (by decide)).2
      (by
        intro s hs hid
        rcases List.mem_cons.mp hs with h | h
        · rw [h] at hid
          exact absurd hid (by decide)
        · rcases List.mem_cons.mp h with h2 | h2
          · exact h2
          · exact absurd h2 (List.not_mem_nil s))⟩

/-- Helper: setting isDefault to true on an account that already has it true
is the identity. -/
theorem account_set_true_self (b : Account) (hb : b.isDefault = true) :
    ({ b with isDefault := true } : Account) = b := by
  cases b
  simp_all

/-- Helper for C9: on a duplicate-free account table whose only default owned
by the user is the named target, the clear-then-set composition is the
identity map. -/
theorem map_clear_set_id (accs : List Account) (uid aid : ℕ)
    (hnd : (accs.map (fun a => a.id)).Nodup)
    (tgt : Account) (htgt : tgt ∈ accs) (hid : tgt.id = aid)
    (huid : tgt.userId = uid) (hdef : tgt.isDefault = true)
    (honly : ∀ a ∈ accs, a.userId = uid → a.isDefault = true → a = tgt) :
    ((accs.map (fun a =>
        if a.userId == uid && a.isDefault then { a with isDefault := false } else a)).map
      (fun a =>
        if a.id == aid && a.userId == uid then { a with isDefault := true } else a)) =
      accs := by
  rw [List.map_map]
  have hpt : ∀ a ∈ accs,
      ((fun a : Account =>
        if a.id == aid && a.userId == uid then { a with isDefault := true } else a) ∘
       (fun a : Account =>
        if a.userId == uid && a.isDefault then { a with isDefault := false } else a)) a
      = id a := by
    intro a ha
    simp only [Function.comp_apply, id_eq]
    by_cases hc : (a.userId == uid && a.isDefault) = true
    · have hc2 := hc
      simp only [Bool.and_eq_true, beq_iff_eq] at hc2
      have hat : a = tgt := honly a ha hc2.1 hc2.2
      rw [if_pos hc, if_pos (by simp [hat, hid, huid])]
      show ({ a with isDefault := true } : Account) = a
      exact account_set_true_self a hc2.2
    · rw [if_neg hc]
      by_cases hg : (a.id == aid && a.userId == uid) = true
      · exfalso
        have hg2 := hg
        simp only [Bool.and_eq_true, beq_iff_eq] at hg2
        have hat : a = tgt :=
          List.inj_on_of_nodup_map hnd ha htgt (by rw [hg2.1, hid])
        apply hc
        rw [hat]
        simp [huid, hdef]
      · rw [if_neg hg]
  rw [List.map_congr_left hpt, List.map_id]

/-- C9: calling updateDefaultAccount with the id of the account that is
already the user's (unique) default leaves the whole store unchanged and
returns success. -/
theorem setDefault_already_default_noop (cid : ℕ) (db : DB) (u : User) (tgt : Account)
    (hu : db.users.find? (fun v => v.clerkUserId == cid) = some u)
    (hnd : nodupIds db) (htgt : tgt ∈ db.accounts) (huid : tgt.userId = u.id)
    (hdef : tgt.isDefault = true)
    (honly : ∀ a ∈ db.accounts, a.userId = u.id → a.isDefault = true → a = tgt) :
    updateDefaultAccount (some cid) db tgt.id = ({ success := true, error := none }, db) := by
  have hmem : ({ tgt with isDefault := false } : Account) ∈ (clearDefaults db u.id).accounts := by
    unfold clearDefaults
    exact List.mem_map.mpr ⟨tgt, htgt, by simp [huid, hdef]⟩
  have hfind : ((clearDefaults db u.id).accounts.find?
      (fun a => a.id == tgt.id && a.userId == u.id)).isSome := by
    rw [List.find?_isSome]
    exact ⟨_, hmem, by simp [huid]⟩
  rcases Option.isSome_iff_exists.mp hfind with ⟨x, hx⟩
  have hstate : setDefaultWhere (clearDefaults db u.id) tgt.id u.id = db := by
    unfold setDefaultWhere clearDefaults
    dsimp only
    rw [map_clear_set_id db.accounts u.id tgt.id hnd tgt htgt rfl huid hdef honly]
  simp only [updateDefaultAccount, hu, hx, hstate]

/-- Helper: filtering a mapped list counts the composed predicate. -/
theorem length_filter_map_eq (l : List Account) (f : Account → Account)
    (p : Account → Bool) :
    ((l.map f).filter p).length = (l.filter (fun a => p (f a))).length := by
  rw [List.filter_map, List.length_map]
  rfl

/-- Helper: on a table with duplicate-free ids, a predicate satisfied by a
member and forcing that member's id has exactly one match. -/
theorem length_filter_one_of_key {l : List Account} {p : Account → Bool} {b : Account}
    (hnd : (l.map (fun a => a.id)).Nodup) (hb : b ∈ l) (hpb : p b = true)
    (hkey : ∀ c ∈ l, p c = true → c.id = b.id) :
    (l.filter p).length = 1 := by
  induction l with
  | nil => exact absurd hb (List.not_mem_nil b)
  | cons x xs ih =>
    rw [List.map_cons, List.nodup_cons] at hnd
    rcases List.mem_cons.mp hb with hbx | hbxs
    · rw [List.filter_cons, if_pos (hbx ▸ hpb)]
      have hnil : xs.filter p = [] := by
        rw [List.filter_eq_nil_iff]
        intro c hc hpc
        apply hnd.1
        refine List.mem_map.mpr ⟨c, hc, ?_⟩
        rw [hkey c (List.mem_cons_of_mem x hc) hpc, hbx]
      rw [hnil]
      rfl
    · have hpx : p x = false := by
        by_contra hcon
        have hpx' : p x = true := by simpa using hcon
        have hxid : x.id = b.id := hkey x (List.mem_cons_self x xs) hpx'
        exact hnd.1 (List.mem_map.mpr ⟨b, hbxs, hxid.symm⟩)
      rw [List.filter_cons, if_neg (by simp [hpx])]
      exact ih hnd.2 hbxs (fun c hc hpc => hkey c (List.mem_cons_of_mem x hc) hpc)

/-- Helper: mapping a row transformation that preserves a projection
preserves the projected list. -/
theorem map_proj_map_eq {β : Type} (l : List Account) (f : Account → Account)
    (g : Account → β) (h : ∀ a, g (f a) = g a) : (l.map f).map g = l.map g := by
  rw [List.map_map]
  exact List.map_congr_left (fun a _ => h a)

/-- Helper: the clear phase preserves account ids. -/
theorem clearDefaults_ids (db : DB) (uid : ℕ) :
    (clearDefaults db uid).accounts.map (fun a => a.id) =
      db.accounts.map (fun a => a.id) := by
  unfold clearDefaults
  dsimp only
  exact map_proj_map_eq _ _ _ (fun a => by split <;> rfl)

/-- Helper: the clear phase preserves account owners. -/
theorem clearDefaults_userIds (db : DB) (uid : ℕ) :
    (clearDefaults db uid).accounts.map (fun a => a.userId) =
      db.accounts.map (fun a => a.userId) := by
  unfold clearDefaults
  dsimp only
  exact map_proj_map_eq _ _ _ (fun a => by split <;> rfl)

/-- Helper: the set phase preserves account ids. -/
theorem setDefaultWhere_ids (db : DB) (aid uid : ℕ) :
    (setDefaultWhere db aid uid).accounts.map (fun a => a.id) =
      db.accounts.map (fun a => a.id) := by
  unfold setDefaultWhere
  dsimp only
  exact map_proj_map_eq _ _ _ (fun a => by split <;> rfl)

/-- Helper: the set phase preserves account owners. -/
theorem setDefaultWhere_userIds (db : DB) (aid uid : ℕ) :
    (setDefaultWhere db aid uid).accounts.map (fun a => a.userId) =
      db.accounts.map (fun a => a.userId) := by
  unfold setDefaultWhere
  dsimp only
  exact map_proj_map_eq _ _ _ (fun a => by split <;> rfl)

/-- Helper: after the clear phase the user has zero defaults. -/
theorem countDefaults_clear_self (db : DB) (uid : ℕ) :
    countDefaults (clearDefaults db uid) uid = 0 := by
  unfold countDefaults clearDefaults
  rw [length_filter_map_eq, List.length_eq_zero, List.filter_eq_nil_iff]
  intro a ha
  by_cases hc : (a.userId == uid && a.isDefault) = true
  · rw [if_pos hc]
    simp
  · rw [if_neg hc]
    exact hc

/-- Helper: the clear phase leaves other users' default counts unchanged. -/
theorem countDefaults_clear_ne (db : DB) (uid v : ℕ) (h : v ≠ uid) :
    countDefaults (clearDefaults db uid) v = countDefaults db v := by
  unfold countDefaults clearDefaults
  dsimp only
  rw [length_filter_map_eq]
  congr 1
  apply List.filter_congr
  intro a ha
  dsimp only
  by_cases hc : (a.userId == uid && a.isDefault) = true
  · rw [if_pos hc]
    have h1 : a.userId = uid := by
      simp only [Bool.and_eq_true, beq_iff_eq] at hc
      exact hc.1
    simp [h1, Ne.symm h]
  · rw [if_neg hc]

/-- Helper: the set phase leaves other users' default counts unchanged. -/
theorem countDefaults_set_ne (db : DB) (aid uid v : ℕ) (h : v ≠ uid) :
    countDefaults (setDefaultWhere db aid uid) v = countDefaults db v := by
  unfold countDefaults setDefaultWhere
  dsimp only
  rw [length_filter_map_eq]
  congr 1
  apply List.filter_congr
  intro a ha
  dsimp only
  by_cases hc : (a.id == aid && a.userId == uid) = true
  · rw [if_pos hc]
    have h1 : a.userId = uid := by
      simp only [Bool.and_eq_true, beq_iff_eq] at hc
      exact hc.2
    simp [h1, Ne.symm h]
  · rw [if_neg hc]

/-- Helper: in the cleared table, no account of the user is default. -/
theorem cleared_not_default (db : DB) (uid : ℕ) :
    ∀ a ∈ (clearDefaults db uid).accounts, a.userId = uid → a.isDefault = false := by
  intro a ha hu
  unfold clearDefaults at ha
  dsimp only at ha
  rcases List.mem_map.mp ha with ⟨b, hb, hfb⟩
  by_cases hc : (b.userId == uid && b.isDefault) = true
  · rw [if_pos hc] at hfb
    rw [← hfb]
  · rw [if_neg hc] at hfb
    subst hfb
    simp only [Bool.and_eq_true, beq_iff_eq, not_and] at hc
    have h2 := hc hu
    simpa using h2

/-- Helper: setting the found account default right after the clear phase
leaves the user with exactly one default. -/
theorem countDefaults_set_after_clear (db : DB) (uid aid : ℕ)
    (hnd : nodupIds db) (tgt : Account)
    (htgt : tgt ∈ (clearDefaults db uid).accounts) (hid : tgt.id = aid)
    (huid : tgt.userId = uid) :
    countDefaults (setDefaultWhere (clearDefaults db uid) aid uid) uid = 1 := by
  unfold countDefaults setDefaultWhere
  dsimp only
  rw [length_filter_map_eq]
  rw [List.filter_congr (q := fun a => a.id == aid && a.userId == uid) ?hcong]
  case hcong =>
    intro a ha
    dsimp only
    by_cases hc : (a.id == aid && a.userId == uid) = true
    · rw [if_pos hc, hc]
      have h2 : a.userId = uid := by
        simp only [Bool.and_eq_true, beq_iff_eq] at hc
        exact hc.2
      simp [h2]
    · rw [if_neg hc]
      have hc' : (a.id == aid && a.userId == uid) = false := by simpa using hc
      rw [hc']
      by_cases hu2 : a.userId = uid
      · have hnd2 := cleared_not_default db uid a ha hu2
        simp [hnd2]
      · simp [hu2]
  apply length_filter_one_of_key ?nd htgt ?pb ?key
  case nd =>
    rw [clearDefaults_ids]
    exact hnd
  case pb => simp [hid, huid]
  case key =>
    intro c hc hpc
    simp only [Bool.and_eq_true, beq_iff_eq] at hpc
    rw [hpc.1, hid]

/-- Helper: appending a row adds one to the owner's default count exactly
when the row is default. -/
theorem countDefaults_append_one (db : DB) (acct : Account) (v : ℕ) :
    countDefaults { db with accounts := db.accounts ++ [acct] } v =
      countDefaults db v + (if acct.userId == v && acct.isDefault then 1 else 0) := by
  unfold countDefaults
  dsimp only
  rw [List.filter_append, List.length_append]
  congr 1
  by_cases hc : (acct.userId == v && acct.isDefault) = true
  · rw [if_pos hc]
    simp [List.filter_cons, hc]
  · rw [if_neg hc]
    have hc' : (acct.userId == v && acct.isDefault) = false := by simpa using hc
    simp [List.filter_cons, hc']

/-- Helper: a user owns an account iff it appears among the table's owners. -/
theorem userAccounts_ne_nil_iff (db : DB) (uid : ℕ) :
    userAccounts db uid ≠ [] ↔ uid ∈ db.accounts.map (fun a => a.userId) := by
  unfold userAccounts
  constructor
  · intro h
    obtain ⟨a, ha⟩ := List.exists_mem_of_ne_nil _ h
    have h2 := List.mem_filter.mp ha
    exact List.mem_map.mpr ⟨a, h2.1, by simpa using h2.2⟩
  · intro h hnil
    rcases List.mem_map.mp h with ⟨a, ha, hua⟩
    have h2 : a ∈ db.accounts.filter (fun a => a.userId == uid) :=
      List.mem_filter.mpr ⟨ha, by simp [hua]⟩
    rw [hnil] at h2
    exact absurd h2 (List.not_mem_nil a)

/-- Helper: every element is bounded by the foldr max. -/
theorem le_foldr_max (l : List ℕ) (x : ℕ) (hx : x ∈ l) : x ≤ l.foldr max 0 := by
  induction l with
  | nil => cases hx
  | cons y ys ih =>
    rcases List.mem_cons.mp hx with h | h
    · rw [h]
      exact le_max_left _ _
    · exact le_trans (ih h) (le_max_right _ _)

/-- Helper: the generated id is fresh. -/
theorem freshId_not_mem (db : DB) : freshId db ∉ db.accounts.map (fun a => a.id) := by
  unfold freshId
  intro h
  have h2 := le_foldr_max _ _ h
  omega

/-- Helper: a successful updateDefaultAccount preserves id uniqueness and the
single-default invariant, and leaves the caller with exactly one default. -/
theorem updateDefault_success_inv (cid : ℕ) (db : DB) (aid : ℕ)
    (hnd : nodupIds db) (hinv : singleDefaultInv db)
    (h : (updateDefaultAccount (some cid) db aid).1.success = true) :
    nodupIds (updateDefaultAccount (some cid) db aid).2 ∧
    singleDefaultInv (updateDefaultAccount (some cid) db aid).2 ∧
    (∀ u : User, db.users.find? (fun v => v.clerkUserId == cid) = some u →
      countDefaults (updateDefaultAccount (some cid) db aid).2 u.id = 1) := by
  cases hf : db.users.find? (fun v => v.clerkUserId == cid) with
  | none =>
    exfalso
    simp only [updateDefaultAccount, hf] at h
    exact absurd h (by simp)
  | some user =>
    cases hx : (clearDefaults db user.id).accounts.find?
        (fun a => a.id == aid && a.userId == user.id) with
    | none =>
      exfalso
      simp only [updateDefaultAccount, hf, hx] at h
      exact absurd h (by simp)
    | some tgt =>
      have hres : updateDefaultAccount (some cid) db aid =
          ({ success := true, error := none },
            setDefaultWhere (clearDefaults db user.id) aid user.id) := by
        simp only [updateDefaultAccount, hf, hx]
      rw [hres]
      have htgt : tgt ∈ (clearDefaults db user.id).accounts :=
        List.mem_of_find?_eq_some hx
      have hptgt := List.find?_some hx
      simp only [Bool.and_eq_true, beq_iff_eq] at hptgt
      refine ⟨?_, ?_, ?_⟩
      · unfold nodupIds
        rw [setDefaultWhere_ids, clearDefaults_ids]
        exact hnd
      · intro v hv
        rw [setDefaultWhere_userIds, clearDefaults_userIds] at hv
        by_cases hvu : v = user.id
        · rw [hvu]
          exact countDefaults_set_after_clear db user.id aid hnd tgt htgt
            hptgt.1 hptgt.2
        · rw [countDefaults_set_ne _ _ _ _ hvu, countDefaults_clear_ne _ _ _ hvu]
          exact hinv v hv
      · intro u hu
        have huu : u = user := by
          injection hu with h2
          rw [h2]
        rw [huu]
        exact countDefaults_set_after_clear db user.id aid hnd tgt htgt
          hptgt.1 hptgt.2

/-- Helper: inserting a row with the generated fresh id keeps ids unique. -/
theorem append_fresh_nodup (db1 : DB) (A : Account) (hA : A.id = freshId db1)
    (hnd1 : nodupIds db1) :
    nodupIds { db1 with accounts := db1.accounts ++ [A] } := by
  unfold nodupIds
  rw [List.map_append, List.nodup_append]
  refine ⟨hnd1, by simp, ?_⟩
  intro x hx hx2
  simp only [List.map_cons, List.map_nil, List.mem_cons] at hx2
  rcases hx2 with hx2 | hx2
  · rw [hx2, hA] at hx
    exact freshId_not_mem db1 hx
  · exact absurd hx2 (List.not_mem_nil x)

/-- Helper: inserting a row whose owner's count works out to one preserves
the single-default invariant. -/
theorem append_account_inv (db1 : DB) (A : Account)
    (hcnt : countDefaults db1 A.userId + (if A.isDefault then 1 else 0) = 1)
    (hother : ∀ v, v ≠ A.userId → v ∈ db1.accounts.map (fun a => a.userId) →
      countDefaults db1 v = 1) :
    singleDefaultInv { db1 with accounts := db1.accounts ++ [A] } := by
  intro v hv
  rw [countDefaults_append_one]
  simp only [List.map_append, List.mem_append, List.map_cons, List.map_nil,
    List.mem_cons] at hv
  by_cases hvA : v = A.userId
  · rw [hvA]
    simpa using hcnt
  · have hvin : v ∈ db1.accounts.map (fun a => a.userId) := by
      rcases hv with h2 | h2
      · exact h2
      · rcases h2 with h2 | h2
        · exact absurd h2 hvA
        · exact absurd h2 (List.not_mem_nil v)
    have hfa : (A.userId == v && A.isDefault) = false := by
      have : A.userId ≠ v := fun h2 => hvA h2.symm
      simp [this]
    rw [hfa]
    simpa using hother v hvA hvin

/-- Helper: the successful path of createAccount in terms of insertAccount. -/
theorem createAccount_shape (cid : ℕ) (db : DB) (data : AccountData) (user : User)
    (q : ℚ) (hf : db.users.find? (fun v => v.clerkUserId == cid) = some user)
    (hb : data.balance = some q) :
    createAccount (some cid) false db data =
      insertAccount
        (if (if (db.accounts.filter (fun a => a.userId == user.id)).length == 0
            then true else data.isDefault)
          then clearDefaults db user.id else db)
        user.id data q
        (if (db.accounts.filter (fun a => a.userId == user.id)).length == 0
          then true else data.isDefault) := by
  simp only [createAccount, hf, hb, Bool.false_eq_true, if_false]

/-- Helper: the insert step preserves id uniqueness and the single-default
invariant given the right default count at the owner. -/
theorem insertAccount_inv (db1 : DB) (uid : ℕ) (data : AccountData) (q : ℚ)
    (sb : Bool) (acct : Account) (db2 : DB)
    (h : insertAccount db1 uid data q sb = (Except.ok acct, db2))
    (hnd1 : nodupIds db1)
    (hcnt : countDefaults db1 uid + (if sb then 1 else 0) = 1)
    (hother : ∀ v, v ≠ uid → v ∈ db1.accounts.map (fun a => a.userId) →
      countDefaults db1 v = 1) :
    nodupIds db2 ∧ singleDefaultInv db2 ∧
    acct.userId ∈ db2.accounts.map (fun a => a.userId) := by
  unfold insertAccount at h
  simp only [Prod.mk.injEq, Except.ok.injEq] at h
  obtain ⟨hA, hdb2⟩ := h
  subst hdb2
  subst hA
  refine ⟨?_, ?_, ?_⟩
  · exact append_fresh_nodup db1 _ rfl hnd1
  · exact append_account_inv db1 _ hcnt hother
  · simp

/-- Helper: a successful createAccount preserves id uniqueness and the
single-default invariant, and its caller owns an account afterwards. -/
theorem createAccount_success_inv (authId : Option ℕ) (aj : Bool) (db : DB)
    (data : AccountData) (acct : Account) (db2 : DB)
    (hnd : nodupIds db) (hinv : singleDefaultInv db)
    (h : createAccount authId aj db data = (Except.ok acct, db2)) :
    nodupIds db2 ∧ singleDefaultInv db2 ∧
    acct.userId ∈ db2.accounts.map (fun a => a.userId) := by
  rcases authId with _ | cid
  · exact absurd h (by simp [createAccount])
  · cases aj with
    | true => exact absurd h (by simp [createAccount])
    | false =>
      cases hf : db.users.find? (fun v => v.clerkUserId == cid) with
      | none =>
        simp only [createAccount, hf] at h
        exact absurd h (by simp)
      | some user =>
        cases hb : data.balance with
        | none =>
          simp only [createAccount, hf, hb] at h
          exact absurd h (by simp)
        | some q =>
          rw [createAccount_shape cid db data user q hf hb] at h
          have hclear_nd : nodupIds (clearDefaults db user.id) := by
            unfold nodupIds
            rw [clearDefaults_ids]
            exact hnd
          have hclear_other : ∀ v, v ≠ user.id →
              v ∈ (clearDefaults db user.id).accounts.map (fun a => a.userId) →
              countDefaults (clearDefaults db user.id) v = 1 := by
            intro v hv hvin
            rw [clearDefaults_userIds] at hvin
            rw [countDefaults_clear_ne _ _ _ hv]
            exact hinv v hvin
          have hclear_cnt :
              countDefaults (clearDefaults db user.id) user.id +
                (if true then 1 else 0) = 1 := by
            rw [countDefaults_clear_self]
            rfl
          by_cases hlen :
              ((db.accounts.filter (fun a => a.userId == user.id)).length == 0) = true
          · rw [if_pos hlen, if_pos rfl] at h
            exact insertAccount_inv _ _ _ _ _ _ _ h hclear_nd hclear_cnt hclear_other
          · have hlen' : ((db.accounts.filter
                (fun a => a.userId == user.id)).length == 0) = false := by
              simpa using hlen
            rw [hlen'] at h
            simp only [Bool.false_eq_true, if_false] at h
            cases hdf : data.isDefault with
            | true =>
              rw [hdf] at h
              simp only [if_true] at h
              exact insertAccount_inv _ _ _ _ _ _ _ h hclear_nd hclear_cnt hclear_other
            | false =>
              rw [hdf] at h
              simp only [Bool.false_eq_true, if_false] at h
              have hne : userAccounts db user.id ≠ [] := by
                intro hn
                unfold userAccounts at hn
                rw [hn] at hlen'
                simp at hlen'
              have hmem := (userAccounts_ne_nil_iff db user.id).mp hne
              have hcnt : countDefaults db user.id + (if false then 1 else 0) = 1 := by
                simpa using hinv user.id hmem
              exact insertAccount_inv _ _ _ _ _ _ _ h hnd hcnt
                (fun v hv hvin => hinv v hvin)

/-- Helper: every successful Arbiter call preserves id uniqueness and the
single-default invariant. -/
theorem applyOp_success_inv (db : DB) (op : Op)
    (hnd : nodupIds db) (hinv : singleDefaultInv db)
    (h : (applyOp db op).1 = true) :
    nodupIds (applyOp db op).2 ∧ singleDefaultInv (applyOp db op).2 := by
  cases op with
  | createOp a aj d =>
    dsimp only [applyOp] at h ⊢
    cases hc : createAccount a aj db d with
    | mk res db2 =>
      cases res with
      | ok acct =>
        dsimp only at h ⊢
        have h3 := createAccount_success_inv a aj db d acct db2 hnd hinv hc
        exact ⟨h3.1, h3.2.1⟩
      | error e =>
        rw [hc] at h
        exact absurd h (by simp)
  | setDefaultOp a aid =>
    dsimp only [applyOp] at h ⊢
    rcases a with _ | cid
    · exfalso
      simp [updateDefaultAccount] at h
    · exact ⟨(updateDefault_success_inv cid db aid hnd hinv h).1,
        (updateDefault_success_inv cid db aid hnd hinv h).2.1⟩

/-- Helper: a sequence of successful Arbiter calls preserves id uniqueness
and the single-default invariant. -/
theorem runOpsAll_inv (ops : List Op) : ∀ db : DB,
    nodupIds db → singleDefaultInv db → (runOpsAll db ops).1 = true →
    nodupIds (runOpsAll db ops).2 ∧ singleDefaultInv (runOpsAll db ops).2 := by
  induction ops with
  | nil => exact fun db h1 h2 _ => ⟨h1, h2⟩
  | cons op rest ih =>
    intro db h1 h2 hok
    dsimp only [runOpsAll] at hok ⊢
    rw [Bool.and_eq_true] at hok
    have hstep := applyOp_success_inv db op h1 h2 hok.1
    exact ih (applyOp db op).2 hstep.1 hstep.2 hok.2

/-- C1 (amended): from a store with unique account ids satisfying the
single-default invariant, after any sequence of successful createAccount and
setDefaultAccount calls, every user owning at least one account has exactly
one default account. (The unamended claim, over sequences that may include
failed calls, is refuted by the counterexample: a failed set-default call
leaves zero defaults.) -/
theorem runOps_single_default (db : DB) (ops : List Op)
    (hnd : nodupIds db) (hinv : singleDefaultInv db)
    (hok : (runOpsAll db ops).1 = true) :
    ∀ uid, userAccounts (runOpsAll db ops).2 uid ≠ [] →
      countDefaults (runOpsAll db ops).2 uid = 1 := by
  intro uid h
  exact (runOpsAll_inv ops db hnd hinv hok).2 uid
    ((userAccounts_ne_nil_iff _ _).mp h)

/-- Witness for the amended C1: a concrete successful two-call sequence
(create a second account, switch the default to it) ends with exactly one
default. -/
theorem runOps_single_default_witness :
    countDefaults (runOpsAll c1db c1ops).2 1 = 1 :=
  runOps_single_default c1db c1ops (by decide) (by decide) (by rfl) 1 (by decide)

/-- C2 (amended): the clear and set phases of updateDefaultAccount are two
separately committed storage operations, not one atomic unit: when the set
phase fails, the call reports failure but the final store is the cleared
store (the flags stay changed). A call that completes successfully - and a
successful createAccount - does leave its user with exactly one default. -/
theorem defaultSwitch_two_phase :
    (∀ cid db aid u, db.users.find? (fun v => v.clerkUserId == cid) = some u →
      (clearDefaults db u.id).accounts.find?
          (fun a => a.id == aid && a.userId == u.id) = none →
      updateDefaultAccount (some cid) db aid =
        ({ success := false, error := some "Record to update not found" },
          clearDefaults db u.id)) ∧
    (∀ cid db aid u, db.users.find? (fun v => v.clerkUserId == cid) = some u →
      nodupIds db → singleDefaultInv db →
      (updateDefaultAccount (some cid) db aid).1.success = true →
      countDefaults (updateDefaultAccount (some cid) db aid).2 u.id = 1) ∧
    (∀ cid aj db data acct db2, nodupIds db → singleDefaultInv db →
      createAccount (some cid) aj db data = (Except.ok acct, db2) →
      countDefaults db2 acct.userId = 1) := by
  refine ⟨?_, ?_, ?_⟩
  · intro cid db aid u hu hnone
    simp only [updateDefaultAccount, hu, hnone]
  · intro cid db aid u hu hnd hinv h
    exact (updateDefault_success_inv cid db aid hnd hinv h).2.2 u hu
  · intro cid aj db data acct db2 hnd hinv hc
    have h3 := createAccount_success_inv (some cid) aj db data acct db2 hnd hinv hc
    exact h3.2.1 acct.userId h3.2.2

/-- Witness for the amended C2: the concrete failed switch ends in the
cleared store. -/
theorem defaultSwitch_two_phase_witness :
    updateDefaultAccount (some 10) c1db 99 =
      ({ success := false, error := some "Record to update not found" },
        clearDefaults c1db u1.id) :=
  defaultSwitch_two_phase.1 10 c1db 99 u1 rfl rfl

/-- Helper: lookup after a property write. -/
theorem lookupEntry_setEntry (l : List (ℕ × JSVal)) (k key : ℕ) (v : JSVal) :
    lookupEntry (setEntry l k v) key =
      if k == key then some v else lookupEntry l key := by
  induction l with
  | nil => rfl
  | cons hd tl ih =>
    obtain ⟨k1, w⟩ := hd
    by_cases h1 : k1 = k
    · subst h1
      by_cases h2 : k1 = key
      · subst h2
        simp [setEntry, lookupEntry]
      · simp [setEntry, lookupEntry, h2]
    · by_cases h2 : k1 = key
      · subst h2
        have h3 : k ≠ k1 := fun hh => h1 hh.symm
        simp [setEntry, lookupEntry, h1, h3]
      · simp [setEntry, lookupEntry, h1, h2, ih]

/-- Helper: JavaScript + never produces a Decimal object: two numbers add to
a number, and any other operand combination concatenates to a string. -/
theorem jsAdd_ne_dec (a b : JSVal) (q : ℚ) : jsAdd a b ≠ JSVal.dec q := by
  cases a <;> cases b <;> simp [jsAdd]

/-- Helper: folding balance changes never stores a Decimal in the
accumulator - each step writes a jsAdd result, which is a number or a
string. This is a fact about value kinds only: it does not depend on how
JavaScript numbers are idealised. -/
theorem computeChanges_fold_no_dec (ts : List Transaction) :
    ∀ acc : List (ℕ × JSVal),
      (∀ k v, lookupEntry acc k = some v → ∀ q : ℚ, v ≠ JSVal.dec q) →
      ∀ k v, lookupEntry
          (ts.foldl (fun acc t => addChange acc t.accountId (txChange t)) acc) k =
          some v →
        ∀ q : ℚ, v ≠ JSVal.dec q := by
  induction ts with
  | nil =>
    intro acc hacc k v h
    exact hacc k v h
  | cons t ts ih =>
    intro acc hacc k v h
    rw [List.foldl_cons] at h
    refine ih _ ?_ k v h
    intro k2 v2 h2 q
    unfold addChange at h2
    rw [lookupEntry_setEntry] at h2
    by_cases hk : (t.accountId == k2) = true
    · rw [if_pos hk] at h2
      injection h2 with h3
      rw [← h3]
      apply jsAdd_ne_dec
    · rw [if_neg hk] at h2
      exact hacc k2 v2 h2 q

/-- C5 (amended): amount arithmetic in bulkDeleteTransactions is not
fixed-point decimal arithmetic, and internal values do not stay in the
decimal representation: every reversal delta leaves the Decimal domain
before it is combined (an INCOME delta is coerced to a JavaScript number by
unary minus, and an EXPENSE delta - the Decimal object itself - makes the
JavaScript plus concatenate strings through Decimal.prototype.valueOf), so
the per-account accumulator never holds a Decimal value; concretely, for two
EXPENSE amounts 10 and 20 on one account the accumulator holds the string
"01020", applied as the increment 1020 rather than the exact decimal sum 30
of the reversal deltas. The never-a-Decimal half is about value kinds and
the concrete half uses integer amounts (on which JavaScript double
arithmetic is exact), so neither depends on the exact-rational idealisation
of JavaScript numbers. -/
theorem computeChanges_not_decimal :
    (∀ (ts : List Transaction) (aid : ℕ) (v : JSVal),
      lookupEntry (computeChanges ts) aid = some v → ∀ q : ℚ, v ≠ JSVal.dec q) ∧
    lookupEntry (computeChanges [t1ex, t2ex]) 1 = some (JSVal.str "01020") ∧
    jsToDecimalArg (JSVal.str "01020") = some 1020 ∧
    reversalDelta t1ex + reversalDelta t2ex = 30 ∧ (1020 : ℚ) ≠ 30 := by
  refine ⟨?_, rfl, ?_, ?_, by norm_num⟩
  · intro ts aid v h q
    unfold computeChanges at h
    exact computeChanges_fold_no_dec ts []
      (fun k v2 h2 => by simp [lookupEntry] at h2) aid v h q
  · have h : jsToDecimalArg (JSVal.str "01020") = some ((1020 : ℕ) : ℚ) := rfl
    rw [h]
    norm_num
  · have h : reversalDelta t1ex + reversalDelta t2ex = (10 : ℚ) + 20 := rfl
    rw [h]
    norm_num

/-- Witness for the amended C5: the never-a-Decimal statement applied to the
concrete one-EXPENSE run, whose accumulated value evaluates to the string
"010". -/
theorem computeChanges_not_decimal_witness :
    JSVal.str "010" ≠ JSVal.dec 10 :=
  computeChanges_not_decimal.1 [t1ex] 1 (JSVal.str "010") rfl 10

/-- Witness for C9: switching to the already-default account of a two-account
user returns success and the unchanged store. -/
theorem setDefault_already_default_noop_witness :
    updateDefaultAccount (some 10) c9db accX.id =
      ({ success := true, error := none }, c9db) :=
  setDefault_already_default_noop 10 c9db u1 accX rfl (by decide)
    (List.Mem.head _) rfl rfl
    (by
      intro a ha h1 h2
      rcases List.mem_cons.mp ha with h | h
      · exact h
      · rcases List.mem_cons.mp h with h3 | h3
        · rw [h3] at h2
          exact absurd h2 (by decide)
        · exact absurd h3 (List.not_mem_nil a))
